import Mathlib

/-!
Verification development for the StudyBuilder MCP server (`src/server.py`).

The Python module is shallowly embedded: the persistent study store
(directory `study_jsons/` of JSON files) becomes a function from file
paths to optional file contents; a file content is either a well-formed
study record or corrupt bytes (on which Python's `json.load` raises).
Each tool at the protocol boundary becomes a Lean function returning
`Except String String × Store`: `Except.ok msg` models the textual
result string the tool returns, `Except.error e` models an exception
escaping past the boundary, and the second component is the store after
the call.  Numeric bounds (Python floats) are modelled as rationals;
none of the verified properties depend on floating-point rounding.
-/

namespace StudyBuilder

/-- Embedding of an entry of the `inputs` list of a study record:
the dict `{"name": ..., "lower_bound": ..., "upper_bound": ...}`. -/
structure InputSpec where
  name : String
  lower_bound : ℚ
  upper_bound : ℚ
deriving DecidableEq

/-- Embedding of a study record (the JSON object persisted per study). -/
structure Study where
  study_name : String
  executable_path : String
  inputs : List InputSpec
  outputs : List String
deriving DecidableEq

/-- Content of a persisted file: either a well-formed study record, or
corrupt content on which `json.load` raises a decode error. -/
inductive StudyFile where
  | valid (s : Study)
  | corrupt
deriving DecidableEq

/-- The persistent store: a map from file paths to file contents. -/
def Store : Type := String → Option StudyFile

/-- Writing a file into the store. -/
def Store.set (st : Store) (p : String) (f : StudyFile) : Store :=
  fun q => if q = p then some f else st q

/-- Embedding of Python's `str.strip` on a character list: it removes
leading and trailing whitespace. -/
def stripChars (cs : List Char) : List Char :=
  ((cs.dropWhile Char.isWhitespace).reverse.dropWhile Char.isWhitespace).reverse

/-- Embedding of Python's `str.strip` on strings. -/
def stripStr (s : String) : String :=
  String.mk (stripChars s.data)

/-- Embedding of the sanitisation inside `get_study_path`:
`"".join([c for c in study_name if c.isalnum() or c in (' ', '-', '_')]).strip()`.
Python's `str.isalnum` is modelled by `Char.isAlphanum`; the two agree on
the ASCII names used in the claims. -/
def sanitize_name (study_name : String) : String :=
  String.mk (stripChars (study_name.data.filter fun c =>
    c.isAlphanum || c = ' ' || c = '-' || c = '_'))

/-- Embedding of `get_study_path`: `os.path.join(STUDY_DIR, f"{safe_name}.json")`. -/
def get_study_path (study_name : String) : String :=
  "study_jsons/" ++ sanitize_name study_name ++ ".json"

/-- The empty skeleton record `load_study` builds when no file exists. -/
def skeleton (study_name : String) : Study :=
  { study_name := study_name, executable_path := "", inputs := [], outputs := [] }

/-- Embedding of `load_study`: returns the skeleton when the path does not
exist, the parsed record when the file is well-formed, and raises
(`Except.error`) when `json.load` fails on corrupt content. -/
def load_study (st : Store) (study_name : String) : Except String Study :=
  match st (get_study_path study_name) with
  | none => .ok (skeleton study_name)
  | some (.valid s) => .ok s
  | some .corrupt => .error "json.decoder.JSONDecodeError"

/-- Embedding of `save_study`: writes the record at the path derived from
the record's own `study_name` field. -/
def save_study (st : Store) (study_data : Study) : Store :=
  st.set (get_study_path study_data.study_name) (.valid study_data)

/-- Plain-text rendering of a record, standing in for `json.dumps(study)`
inside result messages (the exact JSON text is not claim-relevant). -/
def dumpStudy (s : Study) : String :=
  "study_name=" ++ s.study_name ++ "; executable_path=" ++ s.executable_path ++
    "; inputs=" ++ String.intercalate "," (s.inputs.map (fun i => i.name)) ++
    "; outputs=" ++ String.intercalate "," s.outputs

/-- Embedding of the tool `create_or_load_study`. -/
def create_or_load_study (st : Store) (study_name : String) :
    Except String String × Store :=
  match load_study st study_name with
  | .error e => (.error e, st)
  | .ok study =>
      (.ok ("Study \x27" ++ study_name ++ "\x27 is active. Current state: " ++
        dumpStudy study), save_study st study)

/-- Embedding of the tool `set_executable_path`. -/
def set_executable_path (st : Store) (study_name path : String) :
    Except String String × Store :=
  match load_study st study_name with
  | .error e => (.error e, st)
  | .ok study =>
      (.ok ("Executable path set to: " ++ path),
        save_study st { study with executable_path := path })

/-- Removal of the first list entry whose name matches, embedding
`study["inputs"].remove(existing)` where `existing` is the first entry
with the given name. -/
def removeFirstNamed : List InputSpec → String → List InputSpec
  | [], _ => []
  | x :: xs, n => if x.name = n then xs else x :: removeFirstNamed xs n

/-- Embedding of the tool `add_input_manual`: looks for an existing input
with the same name; if found, removes it and appends the new one (so the
updated entry ends up at the end of the list), otherwise just appends. -/
def add_input_manual (st : Store) (study_name name : String)
    (lower_bound upper_bound : ℚ) : Except String String × Store :=
  match load_study st study_name with
  | .error e => (.error e, st)
  | .ok study =>
      let new_input : InputSpec :=
        { name := name, lower_bound := lower_bound, upper_bound := upper_bound }
      if study.inputs.any (fun item => item.name = name) then
        (.ok ("Updated existing input \x27" ++ name ++ "\x27."),
          save_study st
            { study with inputs := removeFirstNamed study.inputs name ++ [new_input] })
      else
        (.ok ("Added new input \x27" ++ name ++ "\x27."),
          save_study st { study with inputs := study.inputs ++ [new_input] })

/-- Row of a CSV source as produced by `csv.DictReader`: an association
list from field names to cell values. -/
abbrev Row := List (String × String)

/-- Parsed CSV source: the header field names and the data rows (each row
keyed by the file's field names, as `csv.DictReader` yields them). -/
structure CsvSource where
  fieldnames : List String
  rows : List Row
deriving DecidableEq

/-- Lookup of `row[key]` in a `DictReader` row; `none` models a `KeyError`. -/
def lookupRow (row : Row) (key : String) : Option String :=
  (row.find? (fun kv => kv.1 = key)).map (fun kv => kv.2)

/-- Value of a nonempty all-digit character list, `none` otherwise. -/
def parseDigits (cs : List Char) : Option Nat :=
  if cs.isEmpty then none
  else if cs.all Char.isDigit then
    some (cs.foldl (fun acc c => 10 * acc + (c.toNat - 48)) 0)
  else none

/-- Embedding of Python's `float(...)` on the decimal-literal subset
(optional surrounding whitespace, optional sign, digits with an optional
fractional part); `none` models a `ValueError`.  Exponent and inf/nan
forms are not needed by any claim. -/
def parsePyFloat (s : String) : Option ℚ :=
  let cs0 := stripChars s.data
  let signed : ℚ × List Char :=
    match cs0 with
    | '+' :: rest => (1, rest)
    | '-' :: rest => (-1, rest)
    | rest => (1, rest)
  let sign := signed.1
  let cs := signed.2
  let ip := cs.takeWhile (fun c => c ≠ '.')
  match cs.dropWhile (fun c => c ≠ '.') with
  | [] => (parseDigits ip).map (fun n => sign * n)
  | _ :: fp =>
      if ip.isEmpty ∧ fp.isEmpty then none
      else if ip.all Char.isDigit ∧ fp.all Char.isDigit then
        some (sign * (((parseDigits ip).getD 0 : ℚ) +
          ((parseDigits fp).getD 0 : ℚ) / (10 ^ fp.length)))
      else none

/-- Outcome of handling one CSV row, in the evaluation order of the dict
construction in `add_inputs_from_csv`: `row["name"]`, then
`float(row["lower_bound"])`, then `float(row["upper_bound"])`. -/
inductive RowStep where
  | parsed (i : InputSpec)
  | badBound
  | missingKey (key : String)
deriving DecidableEq

/-- Processing of one CSV row: `missingKey` models a `KeyError` (caught by
the outer handler), `badBound` a `ValueError` from `float` (the early
return inside the loop). -/
def stepRow (row : Row) : RowStep :=
  match lookupRow row "name" with
  | none => .missingKey "name"
  | some n =>
    match lookupRow row "lower_bound" with
    | none => .missingKey "lower_bound"
    | some lo =>
      match parsePyFloat lo with
      | none => .badBound
      | some l =>
        match lookupRow row "upper_bound" with
        | none => .missingKey "upper_bound"
        | some hi =>
          match parsePyFloat hi with
          | none => .badBound
          | some h => .parsed { name := n, lower_bound := l, upper_bound := h }

/-- Result of the row loop of `add_inputs_from_csv`. -/
inductive RowOutcome where
  | success (inputs : List InputSpec) (count : Nat)
  | parseFailure (row : Row)
  | keyError (key : String)
deriving DecidableEq

/-- The row loop of `add_inputs_from_csv`: appends parsed inputs in order,
stops at the first row whose bounds fail to parse, and aborts to the
outer handler on a missing key. -/
def processRows (inputs : List InputSpec) (count : Nat) :
    List Row → RowOutcome
  | [] => .success inputs count
  | row :: rest =>
    match stepRow row with
    | .parsed i => processRows (inputs ++ [i]) (count + 1) rest
    | .badBound => .parseFailure row
    | .missingKey k => .keyError k

/-- Plain-text rendering of a row for the parse-error message, standing in
for Python's dict repr: the message reports the offending row. -/
def renderRow (row : Row) : String :=
  String.intercalate ", " (row.map (fun kv => kv.1 ++ "=" ++ kv.2))

/-- Embedding of the tool `add_inputs_from_csv`.  `csvfs` models the file
system the CSV path is resolved in (`none` = file absent).  Note that
`load_study` runs outside the `try` block, and `save_study` runs only
after every row has been processed successfully. -/
def add_inputs_from_csv (st : Store) (study_name : String)
    (csvfs : String → Option CsvSource) (csv_path : String) :
    Except String String × Store :=
  match csvfs csv_path with
  | none => (.ok ("Error: CSV file not found at " ++ csv_path), st)
  | some file =>
    match load_study st study_name with
    | .error e => (.error e, st)
    | .ok study =>
      let headers := file.fieldnames.map stripStr
      if "name" ∈ headers ∧ "lower_bound" ∈ headers ∧ "upper_bound" ∈ headers then
        match processRows study.inputs 0 file.rows with
        | .success inputs count =>
            (.ok ("Successfully imported " ++ toString count ++ " inputs from CSV."),
              save_study st { study with inputs := inputs })
        | .parseFailure row =>
            (.ok ("Error parsing row " ++ renderRow row ++ ". Bounds must be numbers."), st)
        | .keyError k =>
            (.ok ("Error processing CSV: " ++ k), st)
      else
        (.ok ("Error: CSV missing required headers. Found: " ++
          String.intercalate ", " headers), st)

/-- Embedding of the tool `set_study_outputs`: the Python code unions the
selected names into `set(study["outputs"])` and stores `list(...)` of it.
Python's set iteration order is unspecified, so the resulting list is
modelled by the canonical duplicate-free representative `List.dedup`;
every claim about outputs is stated up to set membership and
duplicate-freedom, which are order-independent. -/
def set_study_outputs (st : Store) (study_name : String)
    (selected_outputs : List String) : Except String String × Store :=
  match load_study st study_name with
  | .error e => (.error e, st)
  | .ok study =>
      let outs := (study.outputs ++ selected_outputs).dedup
      (.ok ("Updated study outputs. Current list: " ++ String.intercalate ", " outs),
        save_study st { study with outputs := outs })

/-- Lines of the report built by `get_study_status`, in order: banner, the
executable check, the inputs check, the outputs check, and the final
verdict (`study.get("executable_path") and inputs and outputs`, i.e. all
three truthy). -/
def status_report_lines (study_name : String) (study : Study) : List String :=
  ["--- Status for Study: " ++ study_name ++ " ---",
   (if study.executable_path ≠ "" then
      "[OK] Executable path set: " ++ study.executable_path
    else "[MISSING] Executable path is empty."),
   (if study.inputs ≠ [] then
      "[OK] " ++ (toString study.inputs.length ++ " Inputs defined.")
    else "[MISSING] No inputs defined."),
   (if study.outputs ≠ [] then
      "[OK] " ++ (toString study.outputs.length ++
        (" Outputs defined: " ++ String.intercalate ", " study.outputs))
    else "[MISSING] No outputs defined."),
   (if study.executable_path ≠ "" ∧ study.inputs ≠ [] ∧ study.outputs ≠ [] then
      "\nRESULT: Study is VALID and ready."
    else "\nRESULT: Study is INCOMPLETE.")]

/-- Embedding of the tool `get_study_status`: reports and never writes. -/
def get_study_status (st : Store) (study_name : String) :
    Except String String × Store :=
  match load_study st study_name with
  | .error e => (.error e, st)
  | .ok study =>
      (.ok (String.intercalate "\n" (status_report_lines study_name study)), st)

/-- Structured embedding of the script text produced by `build_studypy`.
The Python function assembles source text; the model captures exactly the
study-dependent content of that text: the executable, one
`name = random.uniform(lower, upper)` sampler per input (in stored
order), one `name = (sum of inputs) * (i+1) * random.uniform(0.9, 1.1)`
formula per output (`i` the 0-based enumerate index), and the header list
`all_fields = input_names + output_names` the driver writes to the result
table. -/
structure Artifact where
  executable : String
  input_generators : List (String × ℚ × ℚ)
  output_generators : List (String × Nat)
  noise_bounds : ℚ × ℚ
  header : List String
deriving DecidableEq

/-- Enumeration of the output formulas, mirroring
`for i, out_name in enumerate(outputs)` with multiplier `i + 1`. -/
def enumOutputs : Nat → List String → List (String × Nat)
  | _, [] => []
  | i, out_name :: rest => (out_name, i + 1) :: enumOutputs (i + 1) rest

/-- Embedding of `build_studypy`, following the source's construction of
`input_generators` / `input_names`, `output_generators` / `output_names`
and `all_fields`. -/
def build_studypy (study_config : Study) : Artifact :=
  let input_generators := study_config.inputs.map
    (fun inp => (inp.name, inp.lower_bound, inp.upper_bound))
  let input_names := study_config.inputs.map (fun inp => inp.name)
  let output_generators := enumOutputs 0 study_config.outputs
  let output_names := study_config.outputs
  { executable := study_config.executable_path
    input_generators := input_generators
    output_generators := output_generators
    noise_bounds := (9 / 10, 11 / 10)
    header := input_names ++ output_names }

/-- Value the generated script computes for the output at position `idx`,
given the sampled input values and the per-output noise draw: the
formula emitted for that output is `(sum of inputs) * multiplier * noise`. -/
def outputValueAt (a : Artifact) (vals : List ℚ) (noise : Nat → ℚ)
    (idx : Nat) : Option ℚ :=
  (a.output_generators[idx]?).map (fun g => vals.sum * g.2 * noise idx)

/-- Embedding of the tool `build_studypy_from_json`: the whole body,
including the `load_study` call, sits inside `try/except Exception`, so
even a corrupt record yields a textual result. -/
def build_studypy_from_json (st : Store) (study_name studypy_path : String) :
    Except String String × Store :=
  match load_study st study_name with
  | .error e => (.ok ("An unexpected error occurred: " ++ e), st)
  | .ok _ => (.ok ("Successfully generated \x27" ++ studypy_path), st)

/-- Embedding of the tool `get_study_progress`: the result table is
modelled as `none` (path absent) or the list of its lines.  The code
computes `sum(1 for row in f) - 1` and clamps negatives to zero. -/
def get_study_progress (file : Option (List String)) : String :=
  match file with
  | none => "Study has not started yet (output file not found)."
  | some lines =>
      let row_count : Int := (lines.length : Int) - 1
      let rc : Int := if row_count < 0 then 0 else row_count
      "Current Progress: " ++ toString rc ++ " iterations completed."

/-- One mutating tool call on a fixed study name, for stating the
uniqueness invariant over call sequences. -/
inductive Op where
  | createOrLoad
  | addManual (iname : String) (lo hi : ℚ)
  | addCsv (csv_path : String)
  | setExe (path : String)
  | setOutputs (sel : List String)

/-- Whether an operation is the CSV import. -/
def Op.isCsv : Op → Bool
  | .addCsv _ => true
  | _ => false

/-- Store after running one tool call under the given study name. -/
def applyOp (csvfs : String → Option CsvSource) (study_name : String)
    (st : Store) : Op → Store
  | .createOrLoad => (create_or_load_study st study_name).2
  | .addManual iname lo hi => (add_input_manual st study_name iname lo hi).2
  | .addCsv p => (add_inputs_from_csv st study_name csvfs p).2
  | .setExe p => (set_executable_path st study_name p).2
  | .setOutputs sel => (set_study_outputs st study_name sel).2

/-- Store after a sequence of tool calls under the given study name. -/
def applyOps (csvfs : String → Option CsvSource) (study_name : String)
    (st : Store) (ops : List Op) : Store :=
  ops.foldl (applyOp csvfs study_name) st

/-- Names of the inputs of the persisted record under a study name
(empty when the record is absent or corrupt). -/
def recordInputNames (st : Store) (study_name : String) : List String :=
  match st (get_study_path study_name) with
  | some (.valid s) => s.inputs.map (fun i => i.name)
  | _ => []

/-- Outputs of the persisted record under a study name. -/
def recordOutputs (st : Store) (study_name : String) : List String :=
  match st (get_study_path study_name) with
  | some (.valid s) => s.outputs
  | _ => []

/-- Invariant of the record persisted under a study name: it round-trips
to the same path (its `study_name` field sanitises to the same file) and
its input names are duplicate-free. -/
def StoreInv (st : Store) (study_name : String) : Prop :=
  match st (get_study_path study_name) with
  | some (.valid s) =>
      get_study_path s.study_name = get_study_path study_name ∧
        (s.inputs.map (fun i => i.name)).Nodup
  | _ => True

/-- Boolean observation of a boundary call: `true` when the call returned
a textual result, `false` when an exception escaped the boundary. -/
def returnsText (r : Except String String × Store) : Bool :=
  match r.1 with
  | .ok _ => true
  | .error _ => false

/-- Store with no persisted files. -/
def emptyStore : Store := fun _ => none

/-- Store holding only the freshly persisted empty skeleton for study "s". -/
def stSkel : Store :=
  Store.set emptyStore (get_study_path "s") (.valid (skeleton "s"))

/-- CSV row `alpha,0,1` of the spec's import example. -/
def alphaRow : Row := [("name", "alpha"), ("lower_bound", "0"), ("upper_bound", "1")]

/-- CSV row `beta,2,notanumber` of the spec's import example. -/
def betaRow : Row := [("name", "beta"), ("lower_bound", "2"), ("upper_bound", "notanumber")]

/-- CSV source with a valid header, one good row and one row with a
non-numeric bound. -/
def csvAB : CsvSource :=
  { fieldnames := ["name", "lower_bound", "upper_bound"], rows := [alphaRow, betaRow] }

/-- File system exposing `csvAB` at path "inputs.csv". -/
def csvfsAB : String → Option CsvSource :=
  fun p => if p = "inputs.csv" then some csvAB else none

/-- CSV source whose two rows carry the same input name. -/
def csvDup : CsvSource :=
  { fieldnames := ["name", "lower_bound", "upper_bound"],
    rows := [[("name", "a"), ("lower_bound", "0"), ("upper_bound", "1")],
             [("name", "a"), ("lower_bound", "2"), ("upper_bound", "3")]] }

/-- File system exposing `csvDup` at path "dup.csv". -/
def csvfsDup : String → Option CsvSource :=
  fun p => if p = "dup.csv" then some csvDup else none

/-- Record for study "s" with inputs speed(0,5) and drag(1,2), in that
order. -/
def speedDragStudy : Study :=
  { study_name := "s", executable_path := "",
    inputs := [{ name := "speed", lower_bound := 0, upper_bound := 5 },
               { name := "drag", lower_bound := 1, upper_bound := 2 }],
    outputs := [] }

/-- Store holding only `speedDragStudy` under study name "s". -/
def stSpeedDrag : Store :=
  Store.set emptyStore (get_study_path "s") (.valid speedDragStudy)

/-- Store holding a corrupt file at the path for study "bad". -/
def stCorrupt : Store :=
  Store.set emptyStore (get_study_path "bad") .corrupt

section Lemmas

/-- Two strings differ when the left one extends a prefix that disagrees
with the right one at some position. -/
theorem string_append_ne (A B C : String) (i : Nat) (hi : i < A.data.length)
    (hne : A.data[i]? ≠ C.data[i]?) : A ++ B ≠ C := by
  intro h
  apply hne
  have h2 : (A ++ B).data[i]? = C.data[i]? := by rw [h]
  rwa [show (A ++ B).data = A.data ++ B.data from rfl,
    List.getElem?_append_left hi] at h2

/-- An if-expression between two distinct strings equals its then-branch
exactly when the condition holds. -/
theorem if_some_eq_iff {c : Prop} [Decidable c] {X Y : String} (h : Y ≠ X) :
    (some (if c then X else Y) = some X) ↔ c := by
  by_cases hc : c
  · simp [hc]
  · simp [hc, h]

/-- Element lookup in the enumerated output formulas. -/
theorem enumOutputs_getElem? :
    ∀ (l : List String) (k i : Nat),
      (enumOutputs k l)[i]? = l[i]?.map (fun n => (n, k + i + 1)) := by
  intro l
  induction l with
  | nil => intro k i; simp [enumOutputs]
  | cons a rest ih =>
      intro k i
      cases i with
      | zero => simp [enumOutputs]
      | succ j =>
          have harith : k + 1 + j + 1 = k + (j + 1) + 1 := by omega
          simp only [enumOutputs, List.getElem?_cons_succ, ih (k + 1) j, harith]

end Lemmas

/-- C5: for every study record, `get_study_status` reports the three
independent checks (executable path set, inputs non-empty, outputs
non-empty) at their fixed positions of the report, reports the overall
verdict VALID exactly when all three hold and INCOMPLETE otherwise, and
does not modify the store. -/
theorem get_study_status_checks :
    ∀ (study_name : String) (study : Study),
      ((status_report_lines study_name study)[4]? =
          some "\nRESULT: Study is VALID and ready." ↔
        (study.executable_path ≠ "" ∧ study.inputs ≠ [] ∧ study.outputs ≠ [])) ∧
      ((status_report_lines study_name study)[1]? =
          some ("[OK] Executable path set: " ++ study.executable_path) ↔
        study.executable_path ≠ "") ∧
      ((status_report_lines study_name study)[2]? =
          some ("[OK] " ++ (toString study.inputs.length ++ " Inputs defined.")) ↔
        study.inputs ≠ []) ∧
      ((status_report_lines study_name study)[3]? =
          some ("[OK] " ++ (toString study.outputs.length ++
            (" Outputs defined: " ++ String.intercalate ", " study.outputs))) ↔
        study.outputs ≠ []) ∧
      (∀ st : Store, (get_study_status st study_name).2 = st) ∧
      (∀ st : Store, load_study st study_name = .ok study →
        (get_study_status st study_name).1 =
          .ok (String.intercalate "\n" (status_report_lines study_name study))) := by
  intro study_name study
  refine ⟨?_, ?_, ?_, ?_, ?_, ?_⟩
  · simp only [status_report_lines, List.getElem?_cons_succ, List.getElem?_cons_zero]
    exact if_some_eq_iff (by decide)
  · simp only [status_report_lines, List.getElem?_cons_succ, List.getElem?_cons_zero]
    exact if_some_eq_iff (Ne.symm (string_append_ne "[OK] Executable path set: "
      study.executable_path "[MISSING] Executable path is empty." 1 (by decide) (by decide)))
  · simp only [status_report_lines, List.getElem?_cons_succ, List.getElem?_cons_zero]
    exact if_some_eq_iff (Ne.symm (string_append_ne "[OK] "
      (toString study.inputs.length ++ " Inputs defined.")
      "[MISSING] No inputs defined." 1 (by decide) (by decide)))
  · simp only [status_report_lines, List.getElem?_cons_succ, List.getElem?_cons_zero]
    exact if_some_eq_iff (Ne.symm (string_append_ne "[OK] "
      (toString study.outputs.length ++
        (" Outputs defined: " ++ String.intercalate ", " study.outputs))
      "[MISSING] No outputs defined." 1 (by decide) (by decide)))
  · intro st
    cases h : load_study st study_name <;> simp [get_study_status, h]
  · intro st h
    simp [get_study_status, h]

/-- Witness for C5: the status theorem applied to the persisted empty
skeleton of study "s", discharging the load hypothesis of its final
conjunct. -/
theorem get_study_status_checks_witness :
    (get_study_status stSkel "s").2 = stSkel ∧
    (get_study_status stSkel "s").1 =
      .ok (String.intercalate "\n" (status_report_lines "s" (skeleton "s"))) :=
  ⟨(get_study_status_checks "s" (skeleton "s")).2.2.2.2.1 stSkel,
    (get_study_status_checks "s" (skeleton "s")).2.2.2.2.2 stSkel rfl⟩

/-- C6: for every study, the generated artifact's result-table header is
exactly the input names followed by the output names, each input is
sampled by `uniform(lower_bound, upper_bound)`, the noise factor is drawn
from `uniform(0.9, 1.1)`, and the output at 1-based index `i + 1` is
computed as `(sum of sampled inputs) * (i + 1) * noise`. -/
theorem build_studypy_header_and_formula :
    ∀ (s : Study) (vals : List ℚ) (noise : Nat → ℚ) (i : Nat),
      (build_studypy s).header = s.inputs.map (fun inp => inp.name) ++ s.outputs ∧
      (build_studypy s).input_generators =
        s.inputs.map (fun inp => (inp.name, inp.lower_bound, inp.upper_bound)) ∧
      (build_studypy s).noise_bounds = (9 / 10, 11 / 10) ∧
      outputValueAt (build_studypy s) vals noise i =
        (s.outputs[i]?).map (fun _ => vals.sum * ((i : ℚ) + 1) * noise i) := by
  intro s vals noise i
  refine ⟨rfl, rfl, rfl, ?_⟩
  simp only [outputValueAt, build_studypy, enumOutputs_getElem?, Option.map_map]
  cases s.outputs[i]? with
  | none => rfl
  | some n =>
      simp only [Option.map, Function.comp_apply, Option.some.injEq]
      push_cast
      ring

/-- C7: `get_study_progress` reports "not started" when the result-table
path does not exist, and for a file of L lines reports exactly
max(L - 1, 0) completed iterations. -/
theorem get_study_progress_counts :
    get_study_progress none = "Study has not started yet (output file not found)." ∧
    ∀ lines : List String,
      get_study_progress (some lines) =
        "Current Progress: " ++ toString (max ((lines.length : Int) - 1) 0) ++
          " iterations completed." := by
  refine ⟨rfl, fun lines => ?_⟩
  have h : (if ((lines.length : Int) - 1) < 0 then (0 : Int) else (lines.length : Int) - 1) =
      max ((lines.length : Int) - 1) 0 := by split <;> omega
  simp only [get_study_progress]
  rw [h]

/-- C10: the study-name sanitisation is not injective: "alpha!" and
"alpha" are distinct names mapped to the same record path, a mutation
invoked under "alpha!" is visible when loading under "alpha", and the
persisted record's `study_name` field retains the unsanitised "alpha!". -/
theorem sanitize_name_not_injective :
    ("alpha!" : String) ≠ "alpha" ∧
    get_study_path "alpha!" = get_study_path "alpha" ∧
    load_study ((add_input_manual emptyStore "alpha!" "x" 0 1).2) "alpha" =
      .ok { study_name := "alpha!", executable_path := "",
            inputs := [{ name := "x", lower_bound := 0, upper_bound := 1 }],
            outputs := [] } := by
  refine ⟨by decide, by decide, rfl⟩

/-- C8: `create_or_load_study` persists a fresh empty skeleton when no
record exists, and when a record exists it returns that record and leaves
the persisted record unchanged — so a second call (or a call after any
mutations) never resets previously set fields. -/
theorem create_or_load_study_idempotent :
    ∀ (st : Store) (study_name : String),
      (st (get_study_path study_name) = none →
        create_or_load_study st study_name =
          (.ok ("Study \x27" ++ study_name ++ "\x27 is active. Current state: " ++
              dumpStudy (skeleton study_name)),
            Store.set st (get_study_path study_name) (.valid (skeleton study_name)))) ∧
      (∀ s : Study, st (get_study_path study_name) = some (.valid s) →
        (create_or_load_study st study_name).1 =
          .ok ("Study \x27" ++ study_name ++ "\x27 is active. Current state: " ++
            dumpStudy s) ∧
        (create_or_load_study st study_name).2 (get_study_path study_name) =
          some (.valid s)) := by
  intro st study_name
  constructor
  · intro h
    simp only [create_or_load_study, load_study, h, save_study]
    rfl
  · intro s h
    refine ⟨by simp only [create_or_load_study, load_study, h], ?_⟩
    simp only [create_or_load_study, load_study, h, save_study, Store.set]
    split <;> rfl

/-- Witness for C8: both branches of the idempotence theorem applied at a
concrete empty store and at a store already holding the record. -/
theorem create_or_load_study_idempotent_witness :
    (create_or_load_study emptyStore "s" =
      (.ok ("Study \x27" ++ "s" ++ "\x27 is active. Current state: " ++
          dumpStudy (skeleton "s")),
        Store.set emptyStore (get_study_path "s") (.valid (skeleton "s")))) ∧
    (create_or_load_study stSkel "s").2 (get_study_path "s") =
      some (.valid (skeleton "s")) :=
  ⟨(create_or_load_study_idempotent emptyStore "s").1 rfl,
    ((create_or_load_study_idempotent stSkel "s").2 (skeleton "s") (by decide)).2⟩

/-- C9: `set_study_outputs` stores, for the loaded record, a collection
equal as a set to the union of the existing outputs and the selected
names, with no duplicates; in particular selecting ["cost","speed"] and
then ["speed","drag"] on an initially empty outputs yields exactly the
set of cost, speed and drag. -/
theorem set_study_outputs_unions :
    (∀ (st : Store) (study_name : String) (sel : List String) (s : Study),
      st (get_study_path study_name) = some (.valid s) →
        (set_study_outputs st study_name sel).2 (get_study_path s.study_name) =
          some (.valid { s with outputs := (s.outputs ++ sel).dedup }) ∧
        ((s.outputs ++ sel).dedup).toFinset = s.outputs.toFinset ∪ sel.toFinset ∧
        ((s.outputs ++ sel).dedup).Nodup) ∧
    (recordOutputs
        ((set_study_outputs ((set_study_outputs stSkel "s" ["cost", "speed"]).2)
          "s" ["speed", "drag"]).2) "s").toFinset =
      ({"cost", "speed", "drag"} : Finset String) ∧
    (recordOutputs
        ((set_study_outputs ((set_study_outputs stSkel "s" ["cost", "speed"]).2)
          "s" ["speed", "drag"]).2) "s").Nodup := by
  refine ⟨?_, by decide, by decide⟩
  intro st study_name sel s h
  refine ⟨?_, ?_, List.nodup_dedup _⟩
  · simp only [set_study_outputs, load_study, h, save_study, Store.set]
    simp
  · ext x
    simp [List.mem_dedup]

/-- Witness for C9: the union theorem applied to the store holding the
empty skeleton for "s" and the first selection of the spec's example. -/
theorem set_study_outputs_unions_witness :
    (set_study_outputs stSkel "s" ["cost", "speed"]).2
        (get_study_path (skeleton "s").study_name) =
      some (.valid { skeleton "s" with
        outputs := ((skeleton "s").outputs ++ ["cost", "speed"]).dedup }) ∧
    (((skeleton "s").outputs ++ ["cost", "speed"]).dedup).toFinset =
      (skeleton "s").outputs.toFinset ∪ (["cost", "speed"] : List String).toFinset ∧
    (((skeleton "s").outputs ++ ["cost", "speed"]).dedup).Nodup :=
  set_study_outputs_unions.1 stSkel "s" ["cost", "speed"] (skeleton "s") (by decide)

/-- C2 counterexample: with a corrupt persisted record for study "bad",
the tool `create_or_load_study` does not return a textual result — the
JSON decode error raised by `load_study` escapes past the protocol
boundary, because the tool body has no exception handler. -/
theorem create_or_load_study_raises_on_corrupt :
    returnsText (create_or_load_study stCorrupt "bad") = false ∧
    create_or_load_study stCorrupt "bad" =
      (.error "json.decoder.JSONDecodeError", stCorrupt) :=
  ⟨rfl, rfl⟩

/-- C2 (amended): every tool operation returns a descriptive textual
result whenever the persisted record it loads is absent or well-formed;
an unreadable (corrupt) record makes the operations that load the study
outside a handler raise past the boundary, while
`build_studypy_from_json`, whose handler wraps the load, returns a
textual result for every store. -/
theorem tools_return_text_on_readable_store :
    ∀ (st : Store) (study_name path iname : String) (lo hi : ℚ)
      (csvfs : String → Option CsvSource) (csv_path : String) (sel : List String),
      (st (get_study_path study_name) = none ∨
        ∃ s : Study, st (get_study_path study_name) = some (.valid s)) →
      returnsText (create_or_load_study st study_name) = true ∧
      returnsText (set_executable_path st study_name path) = true ∧
      returnsText (add_input_manual st study_name iname lo hi) = true ∧
      returnsText (add_inputs_from_csv st study_name csvfs csv_path) = true ∧
      returnsText (set_study_outputs st study_name sel) = true ∧
      returnsText (get_study_status st study_name) = true ∧
      returnsText (build_studypy_from_json st study_name path) = true := by
  intro st study_name path iname lo hi csvfs csv_path sel hyp
  have hld : ∃ s, load_study st study_name = .ok s := by
    rcases hyp with h | ⟨s, h⟩
    · exact ⟨skeleton study_name, by simp [load_study, h]⟩
    · exact ⟨s, by simp [load_study, h]⟩
  rcases hld with ⟨s, hs⟩
  refine ⟨by simp [returnsText, create_or_load_study, hs],
    by simp [returnsText, set_executable_path, hs], ?_, ?_,
    by simp [returnsText, set_study_outputs, hs],
    by simp [returnsText, get_study_status, hs],
    by simp [returnsText, build_studypy_from_json, hs]⟩
  · simp only [add_input_manual, hs]
    split <;> rfl
  · cases hcf : csvfs csv_path with
    | none => simp [returnsText, add_inputs_from_csv, hcf]
    | some file =>
        simp only [add_inputs_from_csv, hcf, hs]
        split
        · cases hpr : processRows s.inputs 0 file.rows <;> simp [hpr, returnsText]
        · rfl

/-- Witness for C2: the amended theorem applied at the empty store with
concrete arguments. -/
theorem tools_return_text_on_readable_store_witness :
    returnsText (create_or_load_study emptyStore "s") = true ∧
    returnsText (set_executable_path emptyStore "s" "model.exe") = true ∧
    returnsText (add_input_manual emptyStore "s" "x" 0 1) = true ∧
    returnsText (add_inputs_from_csv emptyStore "s" csvfsAB "inputs.csv") = true ∧
    returnsText (set_study_outputs emptyStore "s" ["cost"]) = true ∧
    returnsText (get_study_status emptyStore "s") = true ∧
    returnsText (build_studypy_from_json emptyStore "s" "model.exe") = true :=
  tools_return_text_on_readable_store emptyStore "s" "model.exe" "x" 0 1
    csvfsAB "inputs.csv" ["cost"] (Or.inl rfl)

/-- The row loop stops with a parse failure at the first row whose bounds
fail to parse, whatever was accumulated before it. -/
theorem processRows_parseFailure :
    ∀ (good : List Row) (bad : Row) (rest : List Row) (acc : List InputSpec) (cnt : Nat),
      (∀ r ∈ good, ∃ i, stepRow r = .parsed i) →
      stepRow bad = .badBound →
      processRows acc cnt (good ++ bad :: rest) = .parseFailure bad := by
  intro good
  induction good with
  | nil =>
      intro bad rest acc cnt _ hbad
      simp [processRows, hbad]
  | cons r gs ih =>
      intro bad rest acc cnt hgood hbad
      rcases hgood r (by simp) with ⟨i, hi⟩
      simp only [List.cons_append, processRows, hi]
      exact ih bad rest _ _ (fun r' hr' => hgood r' (by simp [hr'])) hbad

/-- C1 counterexample: importing the spec's rows (`alpha,0,1`) and
(`beta,2,notanumber`) into the freshly persisted skeleton of study "s"
aborts on the beta row and reports it, but alpha is NOT persisted: the
persisted record is unchanged (its inputs are still empty), because
`save_study` only runs after every row has parsed. -/
theorem add_inputs_from_csv_rows_not_persisted :
    (add_inputs_from_csv stSkel "s" csvfsAB "inputs.csv").1 =
      .ok ("Error parsing row " ++ renderRow betaRow ++ ". Bounds must be numbers.") ∧
    (add_inputs_from_csv stSkel "s" csvfsAB "inputs.csv").2 (get_study_path "s") =
      some (.valid (skeleton "s")) ∧
    recordInputNames ((add_inputs_from_csv stSkel "s" csvfsAB "inputs.csv").2) "s" = [] :=
  ⟨rfl, rfl, rfl⟩

/-- C1 (amended): when a valid-header CSV source has a first bad row
(every earlier row parses, that row's bounds fail to parse as numbers),
`add_inputs_from_csv` aborts at that row and reports it, and no rows from
the import are persisted: the store is returned unchanged, since the
record is saved only after every row parses (all-or-nothing, not a
partial commit). -/
theorem add_inputs_from_csv_abort_is_atomic :
    ∀ (st : Store) (study_name : String) (csvfs : String → Option CsvSource)
      (csv_path : String) (file : CsvSource) (s : Study)
      (good : List Row) (bad : Row) (rest : List Row),
      csvfs csv_path = some file →
      load_study st study_name = .ok s →
      ("name" ∈ file.fieldnames.map stripStr ∧
        "lower_bound" ∈ file.fieldnames.map stripStr ∧
        "upper_bound" ∈ file.fieldnames.map stripStr) →
      file.rows = good ++ bad :: rest →
      (∀ r ∈ good, ∃ i, stepRow r = .parsed i) →
      stepRow bad = .badBound →
      add_inputs_from_csv st study_name csvfs csv_path =
        (.ok ("Error parsing row " ++ renderRow bad ++ ". Bounds must be numbers."), st) := by
  intro st study_name csvfs csv_path file s good bad rest hcf hld hhdr hrows hgood hbad
  simp only [add_inputs_from_csv, hcf, hld]
  rw [if_pos hhdr, hrows, processRows_parseFailure good bad rest s.inputs 0 hgood hbad]

/-- Witness for C1: the amended abort theorem applied at the spec's
concrete two-row import example. -/
theorem add_inputs_from_csv_abort_is_atomic_witness :
    add_inputs_from_csv stSkel "s" csvfsAB "inputs.csv" =
      (.ok ("Error parsing row " ++ renderRow betaRow ++ ". Bounds must be numbers."),
        stSkel) :=
  add_inputs_from_csv_abort_is_atomic stSkel "s" csvfsAB "inputs.csv" csvAB
    (skeleton "s") [alphaRow] betaRow [] rfl rfl (by decide) rfl
    (fun r hr => by
      simp only [List.mem_singleton] at hr
      subst hr
      exact ⟨_, rfl⟩)
    rfl

/-- Names of the entries after removing the first entry with a given
name: exactly `List.erase` on the name list. -/
theorem map_removeFirstNamed (l : List InputSpec) (n : String) :
    (removeFirstNamed l n).map (fun i => i.name) =
      (l.map (fun i => i.name)).erase n := by
  induction l with
  | nil => simp [removeFirstNamed]
  | cons x xs ih =>
      by_cases h : x.name = n
      · simp [removeFirstNamed, h, List.erase_cons]
      · simp [removeFirstNamed, h, List.erase_cons, ih]

/-- Entries with a different name are untouched by the removal. -/
theorem removeFirstNamed_filter_ne (l : List InputSpec) (n : String) :
    (removeFirstNamed l n).filter (fun i => i.name ≠ n) =
      l.filter (fun i => i.name ≠ n) := by
  induction l with
  | nil => rfl
  | cons x xs ih =>
      by_cases h : x.name = n
      · simp [removeFirstNamed, h]
      · simp only [removeFirstNamed, if_neg h]
        simp only [List.filter_cons]
        rw [ih]

/-- After removal from a duplicate-free list, no entry carries the
removed name. -/
theorem removeFirstNamed_filter_self (l : List InputSpec) (n : String)
    (hnd : (l.map (fun i => i.name)).Nodup) :
    (removeFirstNamed l n).filter (fun i => i.name = n) = [] := by
  rw [List.filter_eq_nil_iff]
  intro x hx
  have hmem : x.name ∈ (l.map (fun i => i.name)).erase n := by
    rw [← map_removeFirstNamed]
    exact List.mem_map_of_mem _ hx
  have := (hnd.mem_erase_iff.1 hmem).1
  simp [this]

/-- The truthiness check of `add_input_manual` agrees with membership of
the name list. -/
theorem any_name_eq (l : List InputSpec) (n : String) :
    (l.any fun item => item.name = n) = true ↔ n ∈ l.map (fun i => i.name) := by
  simp [List.any_eq_true, List.mem_map]

/-- C3 counterexample: upserting "speed" with new bounds into the record
[speed(0,5), drag(1,2)] does update the bounds and keeps exactly one
"speed" entry, but the entry does not stay at its former position: it is
removed and re-appended, so position 0 now holds "drag". -/
theorem add_input_manual_moves_entry :
    (add_input_manual stSpeedDrag "s" "speed" 1 9).2 (get_study_path "s") =
      some (.valid { study_name := "s",
                     executable_path := "",
                     inputs := [{ name := "drag", lower_bound := 1, upper_bound := 2 },
                                { name := "speed", lower_bound := 1, upper_bound := 9 }],
                     outputs := [] }) ∧
    (recordInputNames stSpeedDrag "s")[0]? = some "speed" ∧
    (recordInputNames ((add_input_manual stSpeedDrag "s" "speed" 1 9).2) "s")[0]? =
      some "drag" :=
  ⟨rfl, rfl, rfl⟩

/-- C3 (amended): on a record whose input names are duplicate-free, if an
input with the given name exists, `add_input_manual` replaces it with the
new bounds, leaving exactly one entry with that name — removed from its
former position and appended at the END of the list — keeping all other
entries, and reports an update; otherwise it appends a new entry and
reports an insert. -/
theorem add_input_manual_upsert :
    ∀ (st : Store) (study_name name : String) (lo hi : ℚ) (s : Study),
      st (get_study_path study_name) = some (.valid s) →
      (s.inputs.map (fun i => i.name)).Nodup →
      (name ∈ s.inputs.map (fun i => i.name) →
        (add_input_manual st study_name name lo hi).1 =
          .ok ("Updated existing input \x27" ++ name ++ "\x27.") ∧
        (add_input_manual st study_name name lo hi).2 (get_study_path s.study_name) =
          some (.valid { s with
                         inputs := removeFirstNamed s.inputs name ++
                           [InputSpec.mk name lo hi] }) ∧
        (removeFirstNamed s.inputs name ++
            [InputSpec.mk name lo hi]).filter
          (fun i => i.name = name) =
            [InputSpec.mk name lo hi] ∧
        (removeFirstNamed s.inputs name ++
            [InputSpec.mk name lo hi]).getLast? =
          some (InputSpec.mk name lo hi) ∧
        (removeFirstNamed s.inputs name ++
            [InputSpec.mk name lo hi]).filter
          (fun i => i.name ≠ name) = s.inputs.filter (fun i => i.name ≠ name)) ∧
      (name ∉ s.inputs.map (fun i => i.name) →
        (add_input_manual st study_name name lo hi).1 =
          .ok ("Added new input \x27" ++ name ++ "\x27.") ∧
        (add_input_manual st study_name name lo hi).2 (get_study_path s.study_name) =
          some (.valid { s with
                         inputs := s.inputs ++
                           [InputSpec.mk name lo hi] })) := by
  intro st study_name name lo hi s hst hnd
  have hload : load_study st study_name = .ok s := by simp [load_study, hst]
  constructor
  · intro hmem
    have hany : (s.inputs.any fun item => item.name = name) = true :=
      (any_name_eq s.inputs name).2 hmem
    refine ⟨?_, ?_, ?_, ?_, ?_⟩
    · simp [add_input_manual, hload, hany]
    · simp [add_input_manual, hload, hany, save_study, Store.set]
    · rw [List.filter_append, removeFirstNamed_filter_self s.inputs name hnd]
      simp
    · simp
    · rw [List.filter_append, removeFirstNamed_filter_ne]
      simp
  · intro hmem
    have hany : (s.inputs.any fun item => item.name = name) = false :=
      Bool.eq_false_iff.2 (fun hb => hmem ((any_name_eq s.inputs name).1 hb))
    constructor
    · simp [add_input_manual, hload, hany]
    · simp [add_input_manual, hload, hany, save_study, Store.set]

/-- Witness for C3: the upsert theorem applied to the speed/drag record,
updating "speed" to bounds (1,9). -/
theorem add_input_manual_upsert_witness :
    (add_input_manual stSpeedDrag "s" "speed" 1 9).1 =
      .ok ("Updated existing input \x27" ++ "speed" ++ "\x27.") ∧
    (add_input_manual stSpeedDrag "s" "speed" 1 9).2
        (get_study_path speedDragStudy.study_name) =
      some (.valid { speedDragStudy with
                     inputs := removeFirstNamed speedDragStudy.inputs "speed" ++
                       [InputSpec.mk "speed" 1 9] }) ∧
    (removeFirstNamed speedDragStudy.inputs "speed" ++
        [InputSpec.mk "speed" 1 9]).filter
      (fun i => i.name = "speed") =
        [InputSpec.mk "speed" 1 9] ∧
    (removeFirstNamed speedDragStudy.inputs "speed" ++
        [InputSpec.mk "speed" 1 9]).getLast? =
      some (InputSpec.mk "speed" 1 9) ∧
    (removeFirstNamed speedDragStudy.inputs "speed" ++
        [InputSpec.mk "speed" 1 9]).filter
      (fun i => i.name ≠ "speed") =
        speedDragStudy.inputs.filter (fun i => i.name ≠ "speed") :=
  (add_input_manual_upsert stSpeedDrag "s" "speed" 1 9 speedDragStudy rfl
    (by decide)).1 (by decide)

/-- Updating an entry in place (remove first occurrence, append the
replacement) keeps the name list duplicate-free. -/
theorem nodup_names_update (l : List InputSpec) (n : String)
    (hnd : (l.map (fun i => i.name)).Nodup) (new : InputSpec) (hn : new.name = n) :
    ((removeFirstNamed l n ++ [new]).map (fun i => i.name)).Nodup := by
  rw [List.map_append, map_removeFirstNamed]
  refine List.Nodup.append (hnd.erase n) (by simp) ?_
  intro a ha hb
  simp [hn] at hb
  subst hb
  exact (hnd.mem_erase_iff.1 ha).1 rfl

/-- Appending an entry whose name is fresh keeps the name list
duplicate-free. -/
theorem nodup_names_append (l : List InputSpec) (n : String)
    (hnd : (l.map (fun i => i.name)).Nodup)
    (hnot : n ∉ l.map (fun i => i.name)) (new : InputSpec) (hn : new.name = n) :
    ((l ++ [new]).map (fun i => i.name)).Nodup := by
  rw [List.map_append]
  refine List.Nodup.append hnd (by simp) ?_
  intro a ha hb
  simp [hn] at hb
  subst hb
  exact hnot ha

/-- Saving a record that round-trips to the monitored path establishes
the store invariant when its input names are duplicate-free. -/
theorem storeInv_save (st : Store) (study_name : String) (s' : Study)
    (hpath : get_study_path s'.study_name = get_study_path study_name)
    (hnd : (s'.inputs.map (fun i => i.name)).Nodup) :
    StoreInv (save_study st s') study_name := by
  have hlook : (save_study st s') (get_study_path study_name) = some (.valid s') := by
    simp [save_study, Store.set, hpath]
  simp only [StoreInv, hlook]
  exact ⟨hpath, hnd⟩

/-- Every mutating tool call other than the CSV import preserves the
uniqueness invariant of the persisted record's input names. -/
theorem storeInv_applyOp_nonCsv :
    ∀ (csvfs : String → Option CsvSource) (study_name : String) (op : Op),
      op.isCsv = false →
      ∀ st : Store, StoreInv st study_name →
        StoreInv (applyOp csvfs study_name st op) study_name := by
  intro csvfs study_name op hop st hinv
  cases hl : st (get_study_path study_name) with
  | none =>
      have hload : load_study st study_name = .ok (skeleton study_name) := by
        simp [load_study, hl]
      cases op with
      | createOrLoad =>
          simp only [applyOp, create_or_load_study, hload]
          exact storeInv_save st study_name _ rfl (by simp [skeleton])
      | addManual iname lo hi =>
          simp only [applyOp, add_input_manual, hload]
          split
          · exact storeInv_save st study_name _ rfl (by simp [skeleton, removeFirstNamed])
          · exact storeInv_save st study_name _ rfl (by simp [skeleton])
      | addCsv p => simp [Op.isCsv] at hop
      | setExe p =>
          simp only [applyOp, set_executable_path, hload]
          exact storeInv_save st study_name _ rfl (by simp [skeleton])
      | setOutputs sel =>
          simp only [applyOp, set_study_outputs, hload]
          exact storeInv_save st study_name _ rfl (by simp [skeleton])
  | some f =>
      cases f with
      | corrupt =>
          have hload : load_study st study_name =
              .error "json.decoder.JSONDecodeError" := by
            simp [load_study, hl]
          have hst : applyOp csvfs study_name st op = st := by
            cases op with
            | createOrLoad => simp [applyOp, create_or_load_study, hload]
            | addManual iname lo hi => simp [applyOp, add_input_manual, hload]
            | addCsv p =>
                cases hcf : csvfs p with
                | none => simp [applyOp, add_inputs_from_csv, hcf]
                | some file => simp [applyOp, add_inputs_from_csv, hcf, hload]
            | setExe p => simp [applyOp, set_executable_path, hload]
            | setOutputs sel => simp [applyOp, set_study_outputs, hload]
          rw [hst]
          exact hinv
      | valid s =>
          obtain ⟨hpath, hnd⟩ : get_study_path s.study_name = get_study_path study_name ∧
              (s.inputs.map (fun i => i.name)).Nodup := by
            simpa only [StoreInv, hl] using hinv
          have hload : load_study st study_name = .ok s := by
            simp [load_study, hl]
          cases op with
          | createOrLoad =>
              simp only [applyOp, create_or_load_study, hload]
              exact storeInv_save st study_name s hpath hnd
          | addManual iname lo hi =>
              simp only [applyOp, add_input_manual, hload]
              split
              · refine storeInv_save st study_name _ hpath ?_
                exact nodup_names_update s.inputs iname hnd _ rfl
              · next hneg =>
                  refine storeInv_save st study_name _ hpath ?_
                  refine nodup_names_append s.inputs iname hnd ?_ _ rfl
                  intro hmem
                  exact hneg ((any_name_eq s.inputs iname).2 hmem)
          | addCsv p => simp [Op.isCsv] at hop
          | setExe p =>
              simp only [applyOp, set_executable_path, hload]
              exact storeInv_save st study_name _ hpath hnd
          | setOutputs sel =>
              simp only [applyOp, set_study_outputs, hload]
              exact storeInv_save st study_name _ hpath hnd

/-- C4 counterexample: starting from the empty skeleton of study "s", a
single CSV import whose rows repeat the name "a" leaves the persisted
record with two entries named "a" — the rows are appended verbatim, so
uniqueness of input names is NOT an invariant of all mutating
operations. -/
theorem csv_import_creates_duplicate_names :
    recordInputNames
        (applyOps csvfsDup "s" emptyStore [.createOrLoad, .addCsv "dup.csv"]) "s" =
      ["a", "a"] ∧
    ¬ (recordInputNames
        (applyOps csvfsDup "s" emptyStore [.createOrLoad, .addCsv "dup.csv"]) "s").Nodup :=
  ⟨rfl, by decide⟩

/-- C4 (amended): uniqueness of input names is an invariant of every
sequence of mutating operations that does not use the CSV import
(`create_or_load_study`, `add_input_manual`, `set_executable_path`,
`set_study_outputs`); `add_inputs_from_csv` appends rows verbatim and can
break it. -/
theorem inputs_unique_without_csv_import :
    ∀ (csvfs : String → Option CsvSource) (study_name : String) (ops : List Op),
      (∀ op ∈ ops, op.isCsv = false) →
      ∀ st : Store, StoreInv st study_name →
        StoreInv (applyOps csvfs study_name st ops) study_name := by
  intro csvfs study_name ops
  induction ops with
  | nil => intro _ st h; exact h
  | cons op rest ih =>
      intro hops st hinv
      exact ih (fun o ho => hops o (by simp [ho])) _
        (storeInv_applyOp_nonCsv csvfs study_name op (hops op (by simp)) st hinv)

/-- Witness for C4: the invariant theorem applied to a concrete sequence
that twice upserts the same name and sets the path and outputs, starting
from the empty store. -/
theorem inputs_unique_without_csv_import_witness :
    StoreInv (applyOps (fun _ => none) "s" emptyStore
      [.createOrLoad, .addManual "a" 0 1, .addManual "a" 2 3, .setExe "m.exe",
        .setOutputs ["cost"]]) "s" :=
  inputs_unique_without_csv_import (fun _ => none) "s"
    [.createOrLoad, .addManual "a" 0 1, .addManual "a" 2 3, .setExe "m.exe",
      .setOutputs ["cost"]] (by decide) emptyStore trivial

end StudyBuilder
